import Mathlib

/-!
# Verification of the vcluster operation engine (vclusterops)

A shallow embedding of the parts of the `vclusterops` Go package that the
specification talks about, together with theorems settling the spec claims.

Modelling conventions:
* A Go `error` value is modelled as `List String`: the empty list is `nil`,
  a non-nil error is a non-empty list of messages, `errors.Join` is list
  append (joining with `nil` is the identity, exactly as in Go), and an
  `fmt.Errorf` wrap with `%w` conses its message onto the wrapped error.
* Go `map[string]V` is modelled as `String → Option V` with pointwise
  insert; a lookup of a missing key yields the zero value via `GoMap.getD`.
* JSON decoding (`util.GetJSONLogErrors`, not part of the sources under
  study) is abstracted by storing, in each host result, the decode outcome
  `Except String α` of its `content` string.
* A `for _, x := range list` loop over a slice, and a `range` loop over a
  map whose iteration order Go leaves unspecified, are both modelled as
  structural recursion over a list; theorems about map iteration hold for
  every iteration order because the list is universally quantified.
* Go struct assignment copies scalar fields but shares map headers; where
  this aliasing matters (`NMABootstrapCatalogOp`) the shared map is
  modelled as a single state field.
-/

namespace VClusterOps

/-- Go `error` values: `[]` is `nil`; `errors.Join` is append. -/
abbrev GoError := List String

/-- `resultStatus` from cluster_op.go. -/
inductive resultStatus where
  | SUCCESS
  | FAILURE
  | EXCEPTION
deriving DecidableEq

/-- Status code of a success, from cluster_op.go. -/
def SuccessCode : Int := 200

/-- Status code of an unauthorized request, from cluster_op.go. -/
def UnauthorizedCode : Int := 401

/-- Status code of an internal server error, from cluster_op.go. -/
def InternalErrorCode : Int := 500

/-- `hostHTTPResult` from cluster_op.go: the outcome of one host's request.
`content` is the raw response body; it is parameterised by the type of its
decoded form so that each operation can record the decode outcome. -/
structure hostHTTPResult (γ : Type) where
  status : resultStatus := .SUCCESS
  statusCode : Int := 0
  host : String := ""
  content : γ
  err : GoError := []
deriving DecidableEq

/-- `isUnauthorizedRequest`: the status code is 401. -/
def isUnauthorizedRequest (r : hostHTTPResult γ) : Bool :=
  r.statusCode == UnauthorizedCode

/-- `isSuccess`: the status code is 200. -/
def isSuccess (r : hostHTTPResult γ) : Bool :=
  r.statusCode == SuccessCode

/-- `isInternalError`: the status code is 500. -/
def isInternalError (r : hostHTTPResult γ) : Bool :=
  r.statusCode == InternalErrorCode

/-- `isPassing`: the stored error is nil. -/
def isPassing (r : hostHTTPResult γ) : Bool :=
  r.err.isEmpty

/-- `isHTTPRunning`: the remote service answered at all
(success, unauthorized, or internal error). -/
def isHTTPRunning (r : hostHTTPResult γ) : Bool :=
  if isPassing r || isUnauthorizedRequest r || isInternalError r then true else false

/-- Modelled from the spec: the adapter that constructs `hostHTTPResult`
values is not among the sources under study.  The spec data model states
that the error field is nil (only) on success, so a well-formed result has
a nil error only when its status code is 200. -/
def wellFormedResult (r : hostHTTPResult γ) : Prop :=
  r.err = [] → r.statusCode = SuccessCode

/-- `opBase.hasQuorum` from cluster_op.go: computes
`quorumCount := (primaryNodeCount + 1) / 2` and fails iff
`hostCount < quorumCount` (natural-number division, as Go's uint division). -/
def hasQuorum (hostCount primaryNodeCount : Nat) : Bool :=
  let quorumCount := (primaryNodeCount + 1) / 2
  if hostCount < quorumCount then false else true

/-- The quorum rule as the spec (and the Go function's own doc comment)
states it: `required = floor(primaryCount/2) + 1`, check passes iff
`hostCount >= required`.  Kept separate from `hasQuorum` so the two can be
compared. -/
def hasQuorumSpecRequired (hostCount primaryNodeCount : Nat) : Bool :=
  if primaryNodeCount / 2 + 1 ≤ hostCount then true else false

/-! ## Sensitive fields in request bodies (cluster_op.go) -/

/-- The fixed mask placeholder. -/
def maskedValue : String := "******"

/-- The case-insensitive deny-list of credential-named configuration
parameters. -/
def sensitiveKeyParams : List String :=
  ["awsauth", "awssessiontoken", "gcsauth", "azurestoragecredentials"]

/-- Go `strings.ToLower`, written over the character list so that it
evaluates inside the kernel. -/
def goToLower (s : String) : String :=
  ⟨s.data.map Char.toLower⟩

/-- `sensitiveFields` from cluster_op.go.  The Go `Parameters` map is
modelled as an association list (Go map keys are unique; iteration
touches each entry once). -/
structure sensitiveFields where
  dbPassword : String
  awsAccessKeyID : String
  awsSecretAccessKey : String
  parameters : List (String × String)
deriving DecidableEq

/-- The body of the `for key := range maskedData.Parameters` loop: an entry
whose lower-cased key is in the deny-list gets the placeholder value. -/
def maskEntry (kv : String × String) : String × String :=
  if sensitiveKeyParams.contains (goToLower kv.1) then (kv.1, maskedValue) else kv

/-- The masking pass over the whole `Parameters` map. -/
def maskParams (ps : List (String × String)) : List (String × String) :=
  ps.map maskEntry

/-- `sensitiveFields.maskSensitiveInfo` from cluster_op.go: overwrite the
three fixed credential fields, and mask deny-listed parameter values. -/
def maskSensitiveInfo (d : sensitiveFields) : sensitiveFields :=
  { dbPassword := maskedValue
    awsAccessKeyID := maskedValue
    awsSecretAccessKey := maskedValue
    parameters := maskParams d.parameters }

/-! ## Request collections -/

/-- Go `map[string]V`, as a partial lookup function.  Insertion overwrites,
so each key holds at most one entry, exactly as in a Go map. -/
def GoMap (α : Type) := String → Option α

/-- The empty Go map. -/
def GoMap.empty : GoMap α := fun _ => none

/-- `m[k] = v`. -/
def GoMap.insert (m : GoMap α) (k : String) (v : α) : GoMap α :=
  fun x => if x = k then some v else m x

/-- `m[k]` with the Go zero-value default for missing keys. -/
def GoMap.getD (m : GoMap α) (k : String) (d : α) : α :=
  (m k).getD d

/-- `hostHTTPRequest`: the per-host request an operation builds.  Defaults
are the Go zero values of `HostHTTPRequest{}`. -/
structure hostHTTPRequest where
  method : String := ""
  endpoint : String := ""
  queryParams : List (String × String) := []
  requestData : String := ""
  username : String := ""
  password : Option String := none
deriving DecidableEq

/-- Modelled from the spec: `buildNMAEndpoint` is not among the sources
under study; the spec states paths are versioned endpoints `v1/<resource>`
and cluster_op.go fixes `NMACurVersion = "v1/"`. -/
def buildNMAEndpoint (url : String) : String := "v1/" ++ url

/-- Modelled from the spec: `buildHTTPSEndpoint`, as `buildNMAEndpoint`
with `HTTPCurVersion = "v1/"`. -/
def buildHTTPSEndpoint (url : String) : String := "v1/" ++ url

/-- The shared shape of every `setupClusterHTTPRequest`: starting from the
empty `RequestCollection`, store one request per host of the given list. -/
def buildRequestCollection (f : String → hostHTTPRequest) (hosts : List String) :
    GoMap hostHTTPRequest :=
  hosts.foldl (fun m host => m.insert host (f host)) GoMap.empty

/-! ## HTTPSFindSubclusterOp (https_find_subcluster_op.go) -/

/-- The fields of `HTTPSFindSubclusterOp` that drive its requests and
result processing. -/
structure findSubclusterOp where
  name : String
  scName : String
  ignoreNotFound : Bool
  useHTTPPassword : Bool := false
  userName : String := ""
  httpsPassword : Option String := none

/-- `HTTPSFindSubclusterOp.setupClusterHTTPRequest`: a GET of the
`subclusters` endpoint per host, with credentials when password auth is on. -/
def findSubclusterSetupClusterHTTPRequest (op : findSubclusterOp)
    (hosts : List String) : GoMap hostHTTPRequest :=
  buildRequestCollection
    (fun _ =>
      { method := "GET"
        endpoint := buildHTTPSEndpoint "subclusters"
        username := if op.useHTTPPassword then op.userName else ""
        password := if op.useHTTPPassword then op.httpsPassword else none })
    hosts

/-- `SubclusterInfo` from https_find_subcluster_op.go. -/
structure SubclusterInfo where
  scName : String
  isDefault : Bool
deriving DecidableEq

/-- `SCResp` from https_find_subcluster_op.go. -/
structure SCResp where
  scInfoList : List SubclusterInfo
deriving DecidableEq

/-- The host result of this op; `content` records the JSON decode outcome
of the response body. -/
abbrev findSCResult := hostHTTPResult (Except String SCResp)

/-- The execution-context slot `HTTPSFindSubclusterOp.processResult`
writes; the Go zero value is the empty string. -/
structure findSCExecContext where
  defaultSCName : String := ""
deriving DecidableEq

/-- Wrap of a response-parse failure in `processResult`. -/
def findSCParseFailMsg (name host detail : String) : String :=
  "[" ++ name ++ "] fail to parse result on host " ++ host ++ ", details: " ++ detail

/-- The error reported when the named subcluster is absent. -/
def scNotExistMsg (name scName : String) : String :=
  "[" ++ name ++ "] subcluster " ++ scName ++ " does not exist in the database"

/-- The error reported when no default subcluster is found. -/
def noDefaultScMsg (name : String) : String :=
  "[" ++ name ++ "] cannot find a default subcluster in the database"

/-- The `for _, scInfo := range scResp.SCInfoList` loop of
`HTTPSFindSubclusterOp.processResult`: track whether the named and the
default subcluster were seen, record the default name in the execution
context, and break once both are found. -/
def findSCLoop (scName : String) :
    List SubclusterInfo → Bool → Bool → findSCExecContext →
      Bool × Bool × findSCExecContext
  | [], foundNamedSc, foundDefaultSc, ctx => (foundNamedSc, foundDefaultSc, ctx)
  | scInfo :: rest, foundNamedSc, foundDefaultSc, ctx =>
    let foundNamedSc := foundNamedSc || (scInfo.scName == scName)
    let foundDefaultSc := if scInfo.isDefault then true else foundDefaultSc
    let ctx :=
      if scInfo.isDefault then { ctx with defaultSCName := scInfo.scName } else ctx
    if foundNamedSc && foundDefaultSc then (foundNamedSc, foundDefaultSc, ctx)
    else findSCLoop scName rest foundNamedSc foundDefaultSc ctx

/-- `HTTPSFindSubclusterOp.processResult`, one host at a time, carrying the
`allErrs` accumulator. -/
def findSubclusterProcessResultAux (op : findSubclusterOp) :
    List (String × findSCResult) → GoError → findSCExecContext →
      GoError × findSCExecContext
  | [], allErrs, ctx => (allErrs, ctx)
  | (host, result) :: rest, allErrs, ctx =>
    if isUnauthorizedRequest result then (result.err, ctx)
    else if !isPassing result then
      findSubclusterProcessResultAux op rest (allErrs ++ result.err) ctx
    else
      match result.content with
      | .error e => (allErrs ++ [findSCParseFailMsg op.name host e], ctx)
      | .ok scResp =>
        let r := findSCLoop op.scName scResp.scInfoList false false ctx
        if !(op.scName == "") && !op.ignoreNotFound && !r.1 then
          (allErrs ++ [scNotExistMsg op.name op.scName], r.2.2)
        else if !r.2.1 then (allErrs ++ [noDefaultScMsg op.name], r.2.2)
        else ([], r.2.2)

/-- `HTTPSFindSubclusterOp.processResult` over a result collection. -/
def findSubclusterProcessResult (op : findSubclusterOp)
    (results : List (String × findSCResult)) (ctx : findSCExecContext) :
    GoError × findSCExecContext :=
  findSubclusterProcessResultAux op results [] ctx

/-- The join of the errors of a list of host results, in iteration order. -/
def joinedErrors : List (String × findSCResult) → GoError
  | [] => []
  | p :: rest => p.2.err ++ joinedErrors rest

/-! ## NMANetworkProfileOp (nma_network_profile_op.go) -/

/-- `NetworkProfile` from nma_network_profile_op.go. -/
structure NetworkProfile where
  name : String
  address : String
  subnet : String
  netmask : String
  broadcast : String
deriving DecidableEq

/-- `NMANetworkProfileOp.setupClusterHTTPRequest`: a GET of
`network-profiles` per host with the broadcast hint query parameter. -/
def networkProfileSetupClusterHTTPRequest (hosts : List String) :
    GoMap hostHTTPRequest :=
  buildRequestCollection
    (fun host =>
      { method := "GET"
        endpoint := buildNMAEndpoint "network-profiles"
        queryParams := [("broadcast-hint", host)] })
    hosts

/-- Modelled from the spec: `util.CheckMissingFields` is not among the
sources under study; the spec requires every decoded field to be checked
for non-emptiness, a well-formed-but-incomplete payload being a parse
failure.  Returns true when no field is empty. -/
def networkProfileComplete (p : NetworkProfile) : Bool :=
  !(p.name == "" || p.address == "" || p.subnet == "" || p.netmask == ""
    || p.broadcast == "")

/-- `NMANetworkProfileOp.parseResponse`: decode the response, then fail if
any field is empty. -/
def parseNetworkProfileResponse (content : Except String NetworkProfile) :
    Except String NetworkProfile :=
  match content with
  | .error e => .error e
  | .ok p =>
    if networkProfileComplete p then .ok p
    else .error "missing fields in response object"

/-- The host result of this op; `content` records the JSON decode outcome. -/
abbrev netProfileResult := hostHTTPResult (Except String NetworkProfile)

/-- The execution-context slot `NMANetworkProfileOp.processResult` writes;
the Go zero value of the map field is nil (`none`). -/
structure netProfileExecContext where
  networkProfiles : Option (GoMap NetworkProfile) := none

/-- Wrap of a parse failure in `NMANetworkProfileOp.processResult`. -/
def netProfileParseFailMsg (name host detail : String) : String :=
  "[" ++ name ++ "] fail to parse network profile on host " ++ host
    ++ ", details: " ++ detail

/-- `NMANetworkProfileOp.processResult`, one host at a time, carrying the
`allErrs` accumulator and the local `allNetProfiles` map.  A parse failure
on a passing host returns that error alone at once; only the final return
stores the collected map into the execution context. -/
def networkProfileProcessResultAux (opName : String) :
    List (String × netProfileResult) → GoError → GoMap NetworkProfile →
      netProfileExecContext → GoError × netProfileExecContext
  | [], allErrs, allNetProfiles, ctx =>
    (allErrs, { ctx with networkProfiles := some allNetProfiles })
  | (host, result) :: rest, allErrs, allNetProfiles, ctx =>
    if isPassing result then
      match parseNetworkProfileResponse result.content with
      | .error e => ([netProfileParseFailMsg opName host e], ctx)
      | .ok profile =>
        networkProfileProcessResultAux opName rest allErrs
          (allNetProfiles.insert host profile) ctx
    else
      networkProfileProcessResultAux opName rest (allErrs ++ result.err)
        allNetProfiles ctx

/-- `NMANetworkProfileOp.processResult` over a result collection. -/
def networkProfileProcessResult (opName : String)
    (results : List (String × netProfileResult)) (ctx : netProfileExecContext) :
    GoError × netProfileExecContext :=
  networkProfileProcessResultAux opName results [] GoMap.empty ctx

/-- One step of collecting the successfully parsed profiles of passing
hosts. -/
def collectNetworkProfilesStep (m : GoMap NetworkProfile)
    (p : String × netProfileResult) : GoMap NetworkProfile :=
  if isPassing p.2 then
    match parseNetworkProfileResponse p.2.content with
    | .ok profile => m.insert p.1 profile
    | .error _ => m
  else m

/-- The map of all successfully parsed profiles of passing hosts. -/
def collectNetworkProfiles (results : List (String × netProfileResult)) :
    GoMap NetworkProfile :=
  results.foldl collectNetworkProfilesStep GoMap.empty

/-- The join of the errors of the non-passing hosts, in iteration order. -/
def networkProfileNonPassingErrors : List (String × netProfileResult) → GoError
  | [] => []
  | p :: rest =>
    (if isPassing p.2 then [] else p.2.err) ++ networkProfileNonPassingErrors rest

/-! ## NMADeleteDirectoriesOp and NMAGetScrutinizeTarOp -/

/-- The generic map-shaped response `opResponseMap` from cluster_op.go. -/
abbrev opResponseMap := List (String × String)

/-- `NMADeleteDirectoriesOp.setupClusterHTTPRequest`: a POST of
`directories/delete` per host carrying that host's prebuilt body. -/
def deleteDirSetupClusterHTTPRequest (hostRequestBodyMap : GoMap String)
    (hosts : List String) : GoMap hostHTTPRequest :=
  buildRequestCollection
    (fun host =>
      { method := "POST"
        endpoint := buildNMAEndpoint "directories/delete"
        requestData := hostRequestBodyMap.getD host "" })
    hosts

/-- `NMADeleteDirectoriesOp.processResult`, one host at a time: a passing
host's response is parsed as a map (a decode failure is joined); every
non-passing host's error is joined. -/
def deleteDirProcessResultAux :
    List (String × hostHTTPResult (Except String opResponseMap)) → GoError →
      GoError
  | [], allErrs => allErrs
  | (_, result) :: rest, allErrs =>
    if isPassing result then
      match result.content with
      | .error e => deleteDirProcessResultAux rest (allErrs ++ [e])
      | .ok _ => deleteDirProcessResultAux rest allErrs
    else deleteDirProcessResultAux rest (allErrs ++ result.err)

/-- `NMADeleteDirectoriesOp.processResult` over a result collection. -/
def deleteDirProcessResult
    (results : List (String × hostHTTPResult (Except String opResponseMap))) :
    GoError :=
  deleteDirProcessResultAux results []

/-- The wrap (`%w`) message of a failed tarball retrieval in
`NMAGetScrutinizeTarOp.processResult`. -/
def tarballErrMsg (batch host : String) : String :=
  "failed to retrieve tarball batch " ++ batch ++ " on host " ++ host
    ++ ", details"

/-- `NMAGetScrutinizeTarOp.processResult`, one host at a time: a passing
host is only logged; a failing host with an internal server error is
skipped with a warning; every other failing host's error is wrapped and
joined. -/
def scrutinizeTarProcessResultAux (batch : String) :
    List (String × hostHTTPResult String) → GoError → GoError
  | [], allErrs => allErrs
  | (host, result) :: rest, allErrs =>
    if isPassing result then scrutinizeTarProcessResultAux batch rest allErrs
    else if isInternalError result then
      scrutinizeTarProcessResultAux batch rest allErrs
    else
      scrutinizeTarProcessResultAux batch rest
        (allErrs ++ (tarballErrMsg batch host :: result.err))

/-- `NMAGetScrutinizeTarOp.processResult` over a result collection. -/
def scrutinizeTarProcessResult (batch : String)
    (results : List (String × hostHTTPResult String)) : GoError :=
  scrutinizeTarProcessResultAux batch results []

/-! ## NMABootstrapCatalogOp (request-body construction and masking) -/

/-- The scalar fields of `bootstrapCatalogRequestData`.  The `Parameters`
map is *not* a field here: in `setupRequestBody` every host's body is
assigned `Parameters = options.ConfigurationParameters`, so all bodies
share one map header, and that single shared table lives in
`bootstrapCatalogOpState.configurationParameters` below.  Defaults are the
Go zero values. -/
structure bootstrapCatalogRequestData where
  dbName : String := ""
  host : String := ""
  nodeName : String := ""
  catalogPath : String := ""
  storageLocation : String := ""
  portNumber : Int := 0
  controlAddr : String := ""
  broadcastAddr : String := ""
  licenseKey : String := ""
  controlPort : String := ""
  largeCluster : Int := 0
  networkingMode : String := ""
  spreadLogging : Bool := false
  spreadLoggingLevel : Int := 0
  ipv6 : Bool := false
  numShards : Int := 0
  communalStorageURL : String := ""
  dbPassword : String := ""
  awsAccessKeyID : String := ""
  awsSecretAccessKey : String := ""
deriving DecidableEq

/-- Rendering of a Go bool in a marshaled body. -/
def renderBool (b : Bool) : String := if b then "true" else "false"

/-- Rendering of the `parameters` map in a marshaled body. -/
def renderParamsList (ps : List (String × String)) : String :=
  ps.foldl (fun acc kv => acc ++ kv.1 ++ "=" ++ kv.2 ++ ";") ""

/-- `json.Marshal` of a `bootstrapCatalogRequestData` together with the
`Parameters` map it references, modelled as a concrete rendering of every
field in struct order (the claims only compare marshaled bodies for
equality, so any injective rendering serves). -/
def marshalBootstrapCatalogRequestData (d : bootstrapCatalogRequestData)
    (parameters : List (String × String)) : String :=
  "db_name=" ++ d.dbName ++ ";host=" ++ d.host ++ ";node_name=" ++ d.nodeName
    ++ ";catalog_path=" ++ d.catalogPath
    ++ ";storage_location=" ++ d.storageLocation
    ++ ";port_number=" ++ toString d.portNumber
    ++ ";parameters=" ++ renderParamsList parameters
    ++ ";control_addr=" ++ d.controlAddr
    ++ ";broadcast_addr=" ++ d.broadcastAddr
    ++ ";license_key=" ++ d.licenseKey
    ++ ";spread_port=" ++ d.controlPort
    ++ ";large_cluster=" ++ toString d.largeCluster
    ++ ";networking_mode=" ++ d.networkingMode
    ++ ";spread_logging=" ++ renderBool d.spreadLogging
    ++ ";spread_logging_level=" ++ toString d.spreadLoggingLevel
    ++ ";ipv6=" ++ renderBool d.ipv6
    ++ ";num_shards=" ++ toString d.numShards
    ++ ";communal_storage=" ++ d.communalStorageURL
    ++ ";db_password=" ++ d.dbPassword
    ++ ";aws_access_key_id=" ++ d.awsAccessKeyID
    ++ ";aws_secret_access_key=" ++ d.awsSecretAccessKey

/-- The state of `NMABootstrapCatalogOp` touched by `updateRequestBody`:
the per-host bodies, the one shared `Parameters` table (see
`bootstrapCatalogRequestData`), and the marshaled bodies. -/
structure bootstrapCatalogOpState where
  hostRequestBodyMap : GoMap bootstrapCatalogRequestData
  configurationParameters : List (String × String)
  marshaledRequestBodyMap : GoMap String

/-- One iteration of `updateRequestBody`: set the broadcast address from
the host's network profile, marshal the body with the shared `Parameters`
table as it stands, then mask a copy for logging.  The copy shares the
`Parameters` map header, so `maskSensitiveInfo` resets the copy's own
scalar credential fields (no effect on the op state) but writes the
placeholder through the one shared table. -/
def bootstrapUpdateRequestBodyStep (st : bootstrapCatalogOpState)
    (hp : String × NetworkProfile) : bootstrapCatalogOpState :=
  let requestBody :=
    { st.hostRequestBodyMap.getD hp.1 {} with broadcastAddr := hp.2.broadcast }
  let marshaled :=
    marshalBootstrapCatalogRequestData requestBody st.configurationParameters
  { hostRequestBodyMap := st.hostRequestBodyMap.insert hp.1 requestBody
    configurationParameters := maskParams st.configurationParameters
    marshaledRequestBodyMap := st.marshaledRequestBodyMap.insert hp.1 marshaled }

/-- `NMABootstrapCatalogOp.updateRequestBody`: reset the marshaled map,
then iterate over the network profiles of the execution context. -/
def bootstrapUpdateRequestBody (st : bootstrapCatalogOpState)
    (networkProfiles : List (String × NetworkProfile)) :
    bootstrapCatalogOpState :=
  networkProfiles.foldl bootstrapUpdateRequestBodyStep
    { st with marshaledRequestBodyMap := GoMap.empty }

/-! ## Concrete values used by the witnesses -/

/-- A network profile with the given broadcast address. -/
def exampleProfile (broadcast : String) : NetworkProfile :=
  ⟨"eth0", "192.168.100.1", "192.168.0.0/16", "255.255.0.0", broadcast⟩

/-- A host result whose response decodes to the spec's end-to-end example
subcluster list. -/
def exampleFindSCResult : findSCResult :=
  { statusCode := 200
    content := Except.ok ⟨[⟨"default_subcluster", true⟩, ⟨"sc1", false⟩]⟩
    err := [] }

/-- The find-subcluster op of the spec's end-to-end example. -/
def exampleFindSCOp : findSubclusterOp :=
  { name := "HTTPSFindSubclusterOp", scName := "sc1", ignoreNotFound := false }

/-- An unauthorized host result. -/
def exampleUnauthorizedFindSCResult : findSCResult :=
  { statusCode := 401
    content := Except.error "no response body"
    err := ["error unauthorized request on host h1"] }

/-- A failing host result with an internal server error. -/
def exampleInternalErrorResult : hostHTTPResult String :=
  { statusCode := 500, content := "", err := ["tar creation failed"] }

/-- A failing host result from a refused connection. -/
def exampleRefusedResult : hostHTTPResult String :=
  { statusCode := 0, content := "", err := ["connection refused"] }

/-- A failing delete-directories host result. -/
def exampleFailedDeleteResult : hostHTTPResult (Except String opResponseMap) :=
  { statusCode := 500
    content := Except.error "no response body"
    err := ["fail to delete directories"] }

/-- A passing network-profile result that fails to decode. -/
def exampleBadNetProfileResult : netProfileResult :=
  { statusCode := 200, content := Except.error "invalid character", err := [] }

/-- A passing network-profile result that parses completely. -/
def exampleGoodNetProfileResult : netProfileResult :=
  { statusCode := 200, content := Except.ok (exampleProfile "192.168.255.255"), err := [] }

/-- A non-passing network-profile result. -/
def exampleTimeoutNetProfileResult : netProfileResult :=
  { statusCode := 0, content := Except.error "no response body", err := ["timeout"] }

/-! ## Quorum claims -/

/-- C1: `hasQuorum` does not implement `hostCount >= floor(primary/2) + 1`.
At `hostCount = 2`, `primaryNodeCount = 4` the code computes
`quorumCount = (4+1)/2 = 2` and passes, while the claimed rule (which is
also the function's own doc comment, `quorumCount = (1/2 * primaries) + 1`)
requires 3 hosts and fails. -/
theorem hasQuorum_disagrees_with_comment_on_even_primaries :
    hasQuorum 2 4 = true ∧ hasQuorumSpecRequired 2 4 = false :=
  ⟨rfl, rfl⟩

/-- C4: concrete quorum thresholds: with 5 primaries the check passes iff
at least 3 hosts report; with 1 primary iff at least 1 host; with 0
primaries it passes for every host count. -/
theorem hasQuorum_concrete_thresholds (h : Nat) :
    (hasQuorum h 5 = true ↔ 3 ≤ h)
      ∧ (hasQuorum h 1 = true ↔ 1 ≤ h)
      ∧ hasQuorum h 0 = true := by
  refine ⟨?_, ?_, ?_⟩ <;> (simp [hasQuorum]; try omega)

/-! ## Host result classification (C5) -/

/-- C5: the status predicates are exactly the stated tests on the stored
`statusCode` and `err` fields, they are pure functions of those two fields
alone, and, for any result satisfying the (spec-modelled) construction
invariant that the error is nil only on success, a result is never both
passing and unauthorized. -/
theorem hostHTTPResult_classification (r r' : hostHTTPResult String) :
    (isUnauthorizedRequest r = true ↔ r.statusCode = 401)
      ∧ (isInternalError r = true ↔ r.statusCode = 500)
      ∧ (isPassing r = true ↔ r.err = [])
      ∧ (isHTTPRunning r = true ↔
          (isPassing r || isUnauthorizedRequest r || isInternalError r) = true)
      ∧ (r.statusCode = r'.statusCode → r.err = r'.err →
          isUnauthorizedRequest r = isUnauthorizedRequest r'
            ∧ isInternalError r = isInternalError r'
            ∧ isPassing r = isPassing r'
            ∧ isHTTPRunning r = isHTTPRunning r')
      ∧ (wellFormedResult r →
          ¬(isPassing r = true ∧ isUnauthorizedRequest r = true)) := by
  refine ⟨?_, ?_, ?_, ?_, ?_, ?_⟩
  · simp [isUnauthorizedRequest, UnauthorizedCode]
  · simp [isInternalError, InternalErrorCode]
  · simp [isPassing, List.isEmpty_iff]
  · simp [isHTTPRunning]
  · intro hc he
    simp [isUnauthorizedRequest, isInternalError, isPassing, isHTTPRunning, hc, he]
  · rintro hwf ⟨hp, hu⟩
    have herr : r.err = [] := by
      simpa [isPassing, List.isEmpty_iff] using hp
    have h200 : r.statusCode = 200 := hwf herr
    have h401 : r.statusCode = 401 := by
      simpa [isUnauthorizedRequest, UnauthorizedCode] using hu
    omega

/-- Witness for C5 at concrete results. -/
theorem hostHTTPResult_classification_witness :
    (isPassing ({ statusCode := 200, content := "ok", err := [] } :
        hostHTTPResult String) = true ↔
          ({ statusCode := 200, content := "ok", err := [] } :
            hostHTTPResult String).err = [])
      ∧ isUnauthorizedRequest ({ statusCode := 200, content := "ok", err := [] } :
          hostHTTPResult String)
          = isUnauthorizedRequest ({ statusCode := 200, content := "x", err := [] } :
            hostHTTPResult String)
      ∧ ¬(isPassing ({ statusCode := 200, content := "ok", err := [] } :
            hostHTTPResult String) = true
          ∧ isUnauthorizedRequest ({ statusCode := 200, content := "ok", err := [] } :
            hostHTTPResult String) = true) := by
  have h := hostHTTPResult_classification
    ({ statusCode := 200, content := "ok", err := [] } : hostHTTPResult String)
    ({ statusCode := 200, content := "x", err := [] } : hostHTTPResult String)
  exact ⟨h.2.2.1, (h.2.2.2.2.1 rfl rfl).1, h.2.2.2.2.2 (fun _ => rfl)⟩

/-! ## Masking (C9) -/

/-- Masking one entry does not change its key. -/
theorem maskEntry_fst (kv : String × String) : (maskEntry kv).1 = kv.1 := by
  unfold maskEntry
  by_cases h : goToLower kv.1 ∈ sensitiveKeyParams <;> simp [h]

/-- Masking one entry twice is the same as masking it once. -/
theorem maskEntry_idem (kv : String × String) :
    maskEntry (maskEntry kv) = maskEntry kv := by
  unfold maskEntry
  by_cases h : goToLower kv.1 ∈ sensitiveKeyParams <;> simp [h]

/-- C9: masking is idempotent, it preserves the key set of the `Parameters`
map, entries whose lower-cased key is not deny-listed are left unchanged,
and deny-listed entries get the placeholder value. -/
theorem maskSensitiveInfo_idempotent_and_key_preserving (d : sensitiveFields) :
    maskSensitiveInfo (maskSensitiveInfo d) = maskSensitiveInfo d
      ∧ (maskSensitiveInfo d).parameters.map Prod.fst = d.parameters.map Prod.fst
      ∧ (∀ kv ∈ d.parameters,
          (sensitiveKeyParams.contains (goToLower kv.1) = false →
            kv ∈ (maskSensitiveInfo d).parameters)
          ∧ (sensitiveKeyParams.contains (goToLower kv.1) = true →
            (kv.1, maskedValue) ∈ (maskSensitiveInfo d).parameters)) := by
  refine ⟨?_, ?_, ?_⟩
  · simp only [maskSensitiveInfo, maskParams, List.map_map]
    exact congrArg _ (List.map_congr_left fun kv _ => maskEntry_idem kv)
  · simp only [maskSensitiveInfo, maskParams, List.map_map]
    exact List.map_congr_left fun kv _ => maskEntry_fst kv
  · intro kv hkv
    have hmem : maskEntry kv ∈ (maskSensitiveInfo d).parameters := by
      simpa [maskSensitiveInfo, maskParams] using List.mem_map_of_mem maskEntry hkv
    constructor
    · intro hno
      have hno' : goToLower kv.1 ∉ sensitiveKeyParams := by simpa using hno
      have : maskEntry kv = kv := by unfold maskEntry; simp [hno']
      rwa [this] at hmem
    · intro hyes
      have hyes' : goToLower kv.1 ∈ sensitiveKeyParams := by simpa using hyes
      have : maskEntry kv = (kv.1, maskedValue) := by unfold maskEntry; simp [hyes']
      rwa [this] at hmem

/-- Witness for C9 at a concrete `sensitiveFields` value. -/
theorem maskSensitiveInfo_witness :
    ("other", "v") ∈ (maskSensitiveInfo
        ⟨"pw", "id", "key", [("AWSAuth", "secret"), ("other", "v")]⟩).parameters
      ∧ ("AWSAuth", maskedValue) ∈ (maskSensitiveInfo
        ⟨"pw", "id", "key", [("AWSAuth", "secret"), ("other", "v")]⟩).parameters := by
  have h := maskSensitiveInfo_idempotent_and_key_preserving
    ⟨"pw", "id", "key", [("AWSAuth", "secret"), ("other", "v")]⟩
  exact ⟨(h.2.2 ("other", "v") (by decide)).1 (by decide),
    (h.2.2 ("AWSAuth", "secret") (by decide)).2 (by decide)⟩

/-! ## Request-collection completeness (C8) -/

/-- Folding host-wise inserts misses a key exactly when the key is neither
in the host list nor already present. -/
theorem buildRequestCollection_foldl_eq_none (f : String → hostHTTPRequest)
    (hosts : List String) (m : GoMap hostHTTPRequest) (h : String) :
    (hosts.foldl (fun m host => m.insert host (f host)) m) h = none
      ↔ h ∉ hosts ∧ m h = none := by
  induction hosts generalizing m with
  | nil => simp
  | cons host rest ih =>
    rw [List.foldl_cons, ih]
    by_cases hh : h = host <;> simp [GoMap.insert, hh, and_assoc]

/-- A host has an entry in a fresh request collection iff it is in the host
list. -/
theorem buildRequestCollection_mem (f : String → hostHTTPRequest)
    (hosts : List String) (h : String) :
    buildRequestCollection f hosts h ≠ none ↔ h ∈ hosts := by
  rw [buildRequestCollection, Ne, buildRequestCollection_foldl_eq_none]
  simp [GoMap.empty]

/-- C8: after a successful prepare, each of the three operations'
`RequestCollection` has exactly one entry per host of its host list:
an entry exists for a host iff the host is in the list (the map keeps at
most one entry per key). -/
theorem setupClusterHTTPRequest_complete (op : findSubclusterOp)
    (hostRequestBodyMap : GoMap String) (hosts : List String) (h : String) :
    (findSubclusterSetupClusterHTTPRequest op hosts h ≠ none ↔ h ∈ hosts)
      ∧ (deleteDirSetupClusterHTTPRequest hostRequestBodyMap hosts h ≠ none
          ↔ h ∈ hosts)
      ∧ (networkProfileSetupClusterHTTPRequest hosts h ≠ none ↔ h ∈ hosts) :=
  ⟨buildRequestCollection_mem _ hosts h, buildRequestCollection_mem _ hosts h,
    buildRequestCollection_mem _ hosts h⟩

/-! ## HTTPSFindSubclusterOp result processing (C6, C7) -/

/-- Hosts that are neither unauthorized nor passing are skipped with their
errors joined, regardless of what follows them. -/
theorem findSubclusterProcessResultAux_skip (op : findSubclusterOp)
    (pre rest : List (String × findSCResult)) (allErrs : GoError)
    (ctx : findSCExecContext)
    (hpre : ∀ p ∈ pre, isUnauthorizedRequest p.2 = false ∧ isPassing p.2 = false) :
    findSubclusterProcessResultAux op (pre ++ rest) allErrs ctx
      = findSubclusterProcessResultAux op rest (allErrs ++ joinedErrors pre) ctx := by
  induction pre generalizing allErrs with
  | nil => simp [joinedErrors]
  | cons p pre ih =>
    obtain ⟨host, r⟩ := p
    have h1 := hpre (host, r) (List.mem_cons_self _ _)
    rw [List.cons_append]
    rw [findSubclusterProcessResultAux, if_neg (by simp [h1.1]),
      if_pos (by simp [h1.2])]
    rw [ih _ (fun p hp => hpre p (List.mem_cons_of_mem _ hp))]
    simp [joinedErrors]

/-- C7: once the host under examination is unauthorized, `processResult`
returns that host's error at once — the execution context is untouched and
the remaining hosts are never inspected. -/
theorem findSubcluster_unauthorized_short_circuits (op : findSubclusterOp)
    (pre post : List (String × findSCResult)) (host : String) (r : findSCResult)
    (ctx : findSCExecContext)
    (hpre : ∀ p ∈ pre, isUnauthorizedRequest p.2 = false ∧ isPassing p.2 = false)
    (hr : isUnauthorizedRequest r = true) :
    findSubclusterProcessResult op (pre ++ (host, r) :: post) ctx = (r.err, ctx) := by
  unfold findSubclusterProcessResult
  rw [findSubclusterProcessResultAux_skip op pre _ [] ctx hpre]
  rw [findSubclusterProcessResultAux, if_pos (by simp [hr])]

/-- Witness for C7: an unauthorized first host short-circuits past a
healthy second host. -/
theorem findSubcluster_unauthorized_short_circuits_witness :
    findSubclusterProcessResult exampleFindSCOp
        ([] ++ ("h1", exampleUnauthorizedFindSCResult) :: [("h2", exampleFindSCResult)])
        {}
      = (exampleUnauthorizedFindSCResult.err, {}) :=
  findSubcluster_unauthorized_short_circuits exampleFindSCOp []
    [("h2", exampleFindSCResult)] "h1" exampleUnauthorizedFindSCResult {}
    (by simp) rfl

/-- `findSCLoop` over a list with no default entry: the context is left
unchanged and the named flag accumulates the matches. -/
theorem findSCLoop_no_default (s : String) (l : List SubclusterInfo) (fn : Bool)
    (ctx : findSCExecContext) (h : ∀ i ∈ l, i.isDefault = false) :
    findSCLoop s l fn false ctx
      = (fn || l.any (fun i => i.scName == s), false, ctx) := by
  induction l generalizing fn with
  | nil => simp [findSCLoop]
  | cons i rest ih =>
    have hi : i.isDefault = false := h i (List.mem_cons_self _ _)
    simp only [findSCLoop, hi, Bool.false_eq_true, if_false, Bool.and_false]
    rw [ih _ (fun x hx => h x (List.mem_cons_of_mem _ hx))]
    simp [Bool.or_assoc]

/-- `findSCLoop` after the default entry has been found, over a tail with
no further default entry. -/
theorem findSCLoop_found_default (s : String) (l : List SubclusterInfo)
    (fn : Bool) (ctx : findSCExecContext) (h : ∀ i ∈ l, i.isDefault = false) :
    findSCLoop s l fn true ctx
      = (fn || l.any (fun i => i.scName == s), true, ctx) := by
  induction l generalizing fn with
  | nil => simp [findSCLoop]
  | cons i rest ih =>
    have hi : i.isDefault = false := h i (List.mem_cons_self _ _)
    cases hfn : (fn || (i.scName == s)) with
    | true =>
      simp only [findSCLoop, hi, Bool.false_eq_true, if_false, Bool.and_true, hfn,
        if_true]
      have : (fn || List.any (i :: rest) fun i => i.scName == s) = true := by
        simp only [List.any_cons, ← Bool.or_assoc, hfn, Bool.true_or]
      rw [this]
    | false =>
      simp only [findSCLoop, hi, Bool.false_eq_true, if_false, Bool.and_true, hfn]
      rw [ih _ (fun x hx => h x (List.mem_cons_of_mem _ hx))]
      have hf : fn = false ∧ (i.scName == s) = false := by
        simpa using hfn
      simp [hf.1, hf.2]

/-- `findSCLoop` over a list whose unique default entry is `d`: the default
flag comes back true and the context records the default name. -/
theorem findSCLoop_unique_default (s : String) (l : List SubclusterInfo)
    (fn : Bool) (ctx : findSCExecContext) (d : SubclusterInfo)
    (hd : l.filter (fun i => i.isDefault) = [d]) :
    findSCLoop s l fn false ctx
      = (fn || l.any (fun i => i.scName == s), true,
          { ctx with defaultSCName := d.scName }) := by
  induction l generalizing fn ctx with
  | nil => simp at hd
  | cons i rest ih =>
    by_cases hi : i.isDefault = true
    · rw [List.filter_cons_of_pos (by simp [hi])] at hd
      obtain ⟨hid, hrest⟩ := List.cons_eq_cons.mp hd
      subst hid
      have hnone : ∀ x ∈ rest, x.isDefault = false := by
        intro x hx
        have := List.filter_eq_nil_iff.mp hrest x hx
        simpa using this
      cases hfn : (fn || (i.scName == s)) with
      | true =>
        simp only [findSCLoop, hi, if_true, Bool.and_true, hfn]
        have : (fn || List.any (i :: rest) fun i => i.scName == s) = true := by
          simp only [List.any_cons, ← Bool.or_assoc, hfn, Bool.true_or]
        rw [this]
      | false =>
        simp only [findSCLoop, hi, if_true, Bool.and_true, hfn]
        rw [findSCLoop_found_default s rest false _ hnone]
        have hf : fn = false ∧ (i.scName == s) = false := by
          simpa using hfn
        simp [hf.1, hf.2]
    · rw [List.filter_cons_of_neg (by simp [hi])] at hd
      have hi' : i.isDefault = false := by simpa using hi
      simp only [findSCLoop, hi', Bool.false_eq_true, if_false]
      rw [ih _ _ hd]
      simp [Bool.or_assoc]

/-- The head step of `processResult` on the first passing host, when that
host's response parses to a list with unique default entry `d`: every
branch returns at once, so the outcome does not depend on the remaining
hosts. -/
theorem findSubclusterProcessResult_head (op : findSubclusterOp)
    (pre post : List (String × findSCResult)) (host : String) (r : findSCResult)
    (ctx : findSCExecContext) (scResp : SCResp) (d : SubclusterInfo)
    (hpre : ∀ p ∈ pre, isUnauthorizedRequest p.2 = false ∧ isPassing p.2 = false)
    (hnu : isUnauthorizedRequest r = false)
    (hp : isPassing r = true)
    (hc : r.content = Except.ok scResp)
    (hd : scResp.scInfoList.filter (fun i => i.isDefault) = [d]) :
    findSubclusterProcessResult op (pre ++ (host, r) :: post) ctx
      = if !(op.scName == "") && !op.ignoreNotFound
            && !(scResp.scInfoList.any (fun i => i.scName == op.scName)) then
          (joinedErrors pre ++ [scNotExistMsg op.name op.scName],
            { ctx with defaultSCName := d.scName })
        else ([], { ctx with defaultSCName := d.scName }) := by
  unfold findSubclusterProcessResult
  rw [findSubclusterProcessResultAux_skip op pre _ [] ctx hpre]
  rw [findSubclusterProcessResultAux, if_neg (by simp [hnu]),
    if_neg (by simp [hp]), hc]
  simp only []
  rw [findSCLoop_unique_default op.scName scResp.scInfoList false ctx d hd]
  simp only [Bool.false_or, List.nil_append]
  by_cases hcond : (!(op.scName == "") && !op.ignoreNotFound
      && !(scResp.scInfoList.any (fun i => i.scName == op.scName))) = true
  · rw [if_pos hcond, if_pos hcond]
  · rw [if_neg hcond, if_neg hcond]
    rw [if_neg (by simp)]

/-- C6: on the first passing host, if the response's subcluster list has
the unique default entry `d`, then: when the op's name is found (or the
name is empty, or not-found is ignored) the op returns nil and records the
default subcluster name; when a non-empty name is absent and not ignored,
the op returns a non-nil error stating the subcluster does not exist,
without examining the remaining hosts. -/
theorem findSubcluster_default_and_named_lookup (op : findSubclusterOp)
    (pre post : List (String × findSCResult)) (host : String) (r : findSCResult)
    (ctx : findSCExecContext) (scResp : SCResp) (d : SubclusterInfo)
    (hpre : ∀ p ∈ pre, isUnauthorizedRequest p.2 = false ∧ isPassing p.2 = false)
    (hnu : isUnauthorizedRequest r = false)
    (hp : isPassing r = true)
    (hc : r.content = Except.ok scResp)
    (hd : scResp.scInfoList.filter (fun i => i.isDefault) = [d]) :
    ((op.scName = "" ∨ op.ignoreNotFound = true
        ∨ scResp.scInfoList.any (fun i => i.scName == op.scName) = true) →
      findSubclusterProcessResult op (pre ++ (host, r) :: post) ctx
        = ([], { ctx with defaultSCName := d.scName }))
      ∧ ((op.scName ≠ "" ∧ op.ignoreNotFound = false
          ∧ scResp.scInfoList.any (fun i => i.scName == op.scName) = false) →
        (findSubclusterProcessResult op (pre ++ (host, r) :: post) ctx).1
            = joinedErrors pre ++ [scNotExistMsg op.name op.scName]
          ∧ (findSubclusterProcessResult op (pre ++ (host, r) :: post) ctx).1 ≠ []
          ∧ findSubclusterProcessResult op (pre ++ (host, r) :: post) ctx
            = findSubclusterProcessResult op (pre ++ [(host, r)]) ctx) := by
  have hhead := findSubclusterProcessResult_head op pre post host r ctx scResp d
    hpre hnu hp hc hd
  have hhead1 := findSubclusterProcessResult_head op pre [] host r ctx scResp d
    hpre hnu hp hc hd
  constructor
  · intro hcase
    rw [hhead, if_neg ?_]
    rcases hcase with hs | hign | hany
    · simp [hs]
    · simp [hign]
    · simp [hany]
  · rintro ⟨h1, h2, h3⟩
    have hcond : (!(op.scName == "") && !op.ignoreNotFound
        && !(scResp.scInfoList.any (fun i => i.scName == op.scName))) = true := by
      simp [h1, h2, h3]
    rw [hhead, if_pos hcond]
    refine ⟨rfl, by simp, ?_⟩
    rw [hhead1, if_pos hcond]

/-- Witness for C6: the spec's end-to-end example — one host answering the
two-subcluster list, searched name present — succeeds and records
`default_subcluster`; with the absent name `sc2` it fails with the
does-not-exist error. -/
theorem findSubcluster_default_and_named_lookup_witness :
    findSubclusterProcessResult exampleFindSCOp
        ([] ++ ("h1", exampleFindSCResult) :: []) {}
        = ([], { defaultSCName := "default_subcluster" })
      ∧ (findSubclusterProcessResult
          { exampleFindSCOp with scName := "sc2" }
          ([] ++ ("h1", exampleFindSCResult) :: []) {}).1
        = [] ++ [scNotExistMsg "HTTPSFindSubclusterOp" "sc2"] := by
  constructor
  · exact (findSubcluster_default_and_named_lookup exampleFindSCOp [] [] "h1"
      exampleFindSCResult {} ⟨[⟨"default_subcluster", true⟩, ⟨"sc1", false⟩]⟩
      ⟨"default_subcluster", true⟩ (by simp) rfl rfl rfl (by decide)).1
      (Or.inr (Or.inr (by decide)))
  · exact ((findSubcluster_default_and_named_lookup
      { exampleFindSCOp with scName := "sc2" } [] [] "h1"
      exampleFindSCResult {} ⟨[⟨"default_subcluster", true⟩, ⟨"sc1", false⟩]⟩
      ⟨"default_subcluster", true⟩ (by simp) rfl rfl rfl (by decide)).2
      ⟨by decide, rfl, by decide⟩).1

/-! ## NMANetworkProfileOp result processing (C10) -/

/-- If some passing host fails to parse, `processResult` returns a non-nil
error and leaves the execution context untouched, whatever the accumulator
and local map hold. -/
theorem networkProfileProcessResultAux_parse_failure (opName : String)
    (results : List (String × netProfileResult)) (allErrs : GoError)
    (m : GoMap NetworkProfile) (ctx : netProfileExecContext)
    (hbad : ∃ p ∈ results, isPassing p.2 = true
      ∧ ∃ e, parseNetworkProfileResponse p.2.content = .error e) :
    (networkProfileProcessResultAux opName results allErrs m ctx).1 ≠ []
      ∧ (networkProfileProcessResultAux opName results allErrs m ctx).2.networkProfiles
        = ctx.networkProfiles := by
  induction results generalizing allErrs m with
  | nil => simp at hbad
  | cons p rest ih =>
    obtain ⟨host, r⟩ := p
    rcases hbad with ⟨q, hq, hqpass, e, hqerr⟩
    rcases List.mem_cons.mp hq with rfl | hqrest
    · rw [networkProfileProcessResultAux, if_pos (by simp [hqpass]), hqerr]
      simp
    · by_cases hpass : isPassing r = true
      · cases hparse : parseNetworkProfileResponse r.content with
        | error e' =>
          rw [networkProfileProcessResultAux, if_pos (by simp [hpass]), hparse]
          simp
        | ok profile =>
          rw [networkProfileProcessResultAux, if_pos (by simp [hpass]), hparse]
          exact ih _ _ ⟨q, hqrest, hqpass, e, hqerr⟩
      · rw [networkProfileProcessResultAux, if_neg (by simp [hpass])]
        exact ih _ _ ⟨q, hqrest, hqpass, e, hqerr⟩

/-- If every passing host parses completely, `processResult` joins the
errors of the non-passing hosts onto the accumulator and stores the
collected profile map into the execution context. -/
theorem networkProfileProcessResultAux_all_parse (opName : String)
    (results : List (String × netProfileResult)) (allErrs : GoError)
    (m : GoMap NetworkProfile) (ctx : netProfileExecContext)
    (hgood : ∀ p ∈ results, isPassing p.2 = true →
      ∃ profile, parseNetworkProfileResponse p.2.content = .ok profile) :
    networkProfileProcessResultAux opName results allErrs m ctx
      = (allErrs ++ networkProfileNonPassingErrors results,
          { ctx with
            networkProfiles := some (results.foldl collectNetworkProfilesStep m) }) := by
  induction results generalizing allErrs m with
  | nil => simp [networkProfileProcessResultAux, networkProfileNonPassingErrors]
  | cons p rest ih =>
    obtain ⟨host, r⟩ := p
    by_cases hpass : isPassing r = true
    · obtain ⟨profile, hparse⟩ := hgood (host, r) (List.mem_cons_self _ _) hpass
      have hparse' : parseNetworkProfileResponse r.content = .ok profile := hparse
      rw [networkProfileProcessResultAux, if_pos (by simp [hpass]), hparse']
      dsimp only
      rw [ih _ _ (fun q hq => hgood q (List.mem_cons_of_mem _ hq))]
      simp [networkProfileNonPassingErrors, hpass, List.foldl_cons,
        collectNetworkProfilesStep, hparse]
    · have hpass' : isPassing (host, r).2 = false := by
        simpa using hpass
      rw [networkProfileProcessResultAux, if_neg (by simp [hpass'])]
      rw [ih _ _ (fun q hq => hgood q (List.mem_cons_of_mem _ hq))]
      simp [networkProfileNonPassingErrors, hpass', List.foldl_cons,
        collectNetworkProfilesStep]

/-- C10: if any passing host's response fails to decode or has an empty
field, `processResult` returns a non-nil error at once and the execution
context's profile map stays as it was (nil), discarding profiles already
parsed; if every passing host parses completely, the context receives the
map of all parsed profiles and the non-passing hosts' errors are joined
and returned. -/
theorem networkProfile_processResult_parse_failure_and_success
    (opName : String) (results : List (String × netProfileResult))
    (ctx : netProfileExecContext) :
    ((∃ p ∈ results, isPassing p.2 = true
        ∧ ∃ e, parseNetworkProfileResponse p.2.content = .error e) →
      (networkProfileProcessResult opName results ctx).1 ≠ []
        ∧ (networkProfileProcessResult opName results ctx).2.networkProfiles
          = ctx.networkProfiles)
      ∧ ((∀ p ∈ results, isPassing p.2 = true →
          ∃ profile, parseNetworkProfileResponse p.2.content = .ok profile) →
        (networkProfileProcessResult opName results ctx).1
            = networkProfileNonPassingErrors results
          ∧ (networkProfileProcessResult opName results ctx).2.networkProfiles
            = some (collectNetworkProfiles results)) := by
  constructor
  · intro hbad
    exact networkProfileProcessResultAux_parse_failure opName results [] GoMap.empty
      ctx hbad
  · intro hgood
    rw [networkProfileProcessResult,
      networkProfileProcessResultAux_all_parse opName results [] GoMap.empty ctx hgood]
    exact ⟨by simp, rfl⟩

/-- Witness for C10: a sole passing host with an undecodable body leaves
the profile slot nil with a non-nil error; a good host plus a timed-out
host yields the collected map and the timeout error. -/
theorem networkProfile_processResult_witness :
    ((networkProfileProcessResult "NMANetworkProfileOp"
        [("h1", exampleBadNetProfileResult)] {}).1 ≠ []
      ∧ (networkProfileProcessResult "NMANetworkProfileOp"
          [("h1", exampleBadNetProfileResult)] {}).2.networkProfiles = none)
      ∧ (networkProfileProcessResult "NMANetworkProfileOp"
          [("h1", exampleGoodNetProfileResult), ("h2", exampleTimeoutNetProfileResult)]
          {}).1 = ["timeout"] := by
  have h1 := (networkProfile_processResult_parse_failure_and_success
    "NMANetworkProfileOp" [("h1", exampleBadNetProfileResult)] {}).1
    ⟨("h1", exampleBadNetProfileResult), by simp, rfl, "invalid character", rfl⟩
  have h2 := (networkProfile_processResult_parse_failure_and_success
    "NMANetworkProfileOp"
    [("h1", exampleGoodNetProfileResult), ("h2", exampleTimeoutNetProfileResult)] {}).2 ?_
  · exact ⟨h1, h2.1.trans rfl⟩
  · intro p hp hpass
    rcases List.mem_cons.mp hp with rfl | hp'
    · exact ⟨exampleProfile "192.168.255.255", rfl⟩
    · rcases List.mem_cons.mp hp' with rfl | hp''
      · exact absurd hpass (by decide)
      · simp at hp''

/-! ## Error propagation in processResult (C3) -/

/-- Counterexample to C3 as stated: `NMAGetScrutinizeTarOp.processResult`
returns nil on a collection whose only host failed with an internal server
error — that host's non-nil error is dropped from the joined error. -/
theorem scrutinize_internal_error_dropped :
    scrutinizeTarProcessResult "normal" [("h1", exampleInternalErrorResult)] = []
      ∧ exampleInternalErrorResult.err ≠ [] :=
  ⟨rfl, by decide⟩

/-- Accumulated messages survive the rest of the delete-directories scan. -/
theorem deleteDirProcessResultAux_mono
    (results : List (String × hostHTTPResult (Except String opResponseMap)))
    (allErrs : GoError) (e : String) (he : e ∈ allErrs) :
    e ∈ deleteDirProcessResultAux results allErrs := by
  induction results generalizing allErrs with
  | nil => simpa [deleteDirProcessResultAux] using he
  | cons p rest ih =>
    obtain ⟨host, r⟩ := p
    by_cases hpass : isPassing r = true
    · cases hc : r.content with
      | error msg =>
        rw [deleteDirProcessResultAux, if_pos (by simp [hpass]), hc]
        exact ih _ (by simp [he])
      | ok _ =>
        rw [deleteDirProcessResultAux, if_pos (by simp [hpass]), hc]
        exact ih _ he
    · rw [deleteDirProcessResultAux, if_neg (by simp [hpass])]
      exact ih _ (by simp [he])

/-- Accumulated messages survive the rest of the scrutinize-tar scan. -/
theorem scrutinizeTarProcessResultAux_mono (batch : String)
    (results : List (String × hostHTTPResult String)) (allErrs : GoError)
    (e : String) (he : e ∈ allErrs) :
    e ∈ scrutinizeTarProcessResultAux batch results allErrs := by
  induction results generalizing allErrs with
  | nil => simpa [scrutinizeTarProcessResultAux] using he
  | cons p rest ih =>
    obtain ⟨host, r⟩ := p
    by_cases hpass : isPassing r = true
    · rw [scrutinizeTarProcessResultAux, if_pos (by simp [hpass])]
      exact ih _ he
    · by_cases hint : isInternalError r = true
      · rw [scrutinizeTarProcessResultAux, if_neg (by simp [hpass]),
          if_pos (by simp [hint])]
        exact ih _ he
      · rw [scrutinizeTarProcessResultAux, if_neg (by simp [hpass]),
          if_neg (by simp [hint])]
        exact ih _ (by simp [he])

/-- Every message of a failing host's error reaches the joined output of
the delete-directories scan. -/
theorem deleteDirProcessResultAux_propagates
    (results : List (String × hostHTTPResult (Except String opResponseMap)))
    (allErrs : GoError) (host : String)
    (r : hostHTTPResult (Except String opResponseMap))
    (hmem : (host, r) ∈ results) (e : String) (he : e ∈ r.err) :
    e ∈ deleteDirProcessResultAux results allErrs := by
  induction results generalizing allErrs with
  | nil => simp at hmem
  | cons p rest ih =>
    obtain ⟨host', r'⟩ := p
    rcases List.mem_cons.mp hmem with heq | hrest
    · simp only [Prod.mk.injEq] at heq
      obtain ⟨rfl, rfl⟩ := heq
      have hpass : isPassing r = false := by
        rcases hr : r.err with _ | ⟨e', es⟩
        · rw [hr] at he; simp at he
        · simp [isPassing, hr]
      rw [deleteDirProcessResultAux, if_neg (by simp [hpass])]
      exact deleteDirProcessResultAux_mono _ _ _ (by simp [he])
    · by_cases hpass : isPassing r' = true
      · cases hc : r'.content with
        | error msg =>
          rw [deleteDirProcessResultAux, if_pos (by simp [hpass]), hc]
          exact ih _ hrest
        | ok _ =>
          rw [deleteDirProcessResultAux, if_pos (by simp [hpass]), hc]
          exact ih _ hrest
      · rw [deleteDirProcessResultAux, if_neg (by simp [hpass])]
        exact ih _ hrest

/-- Every message of a failing, non-internal-error host's error reaches
the joined output of the scrutinize-tar scan. -/
theorem scrutinizeTarProcessResultAux_propagates (batch : String)
    (results : List (String × hostHTTPResult String)) (allErrs : GoError)
    (host : String) (r : hostHTTPResult String)
    (hmem : (host, r) ∈ results) (hint : isInternalError r = false)
    (e : String) (he : e ∈ r.err) :
    e ∈ scrutinizeTarProcessResultAux batch results allErrs := by
  induction results generalizing allErrs with
  | nil => simp at hmem
  | cons p rest ih =>
    obtain ⟨host', r'⟩ := p
    rcases List.mem_cons.mp hmem with heq | hrest
    · simp only [Prod.mk.injEq] at heq
      obtain ⟨rfl, rfl⟩ := heq
      have hpass : isPassing r = false := by
        rcases hr : r.err with _ | ⟨e', es⟩
        · rw [hr] at he; simp at he
        · simp [isPassing, hr]
      rw [scrutinizeTarProcessResultAux, if_neg (by simp [hpass]),
        if_neg (by simp [hint])]
      exact scrutinizeTarProcessResultAux_mono _ _ _ _ (by simp [he])
    · by_cases hpass : isPassing r' = true
      · rw [scrutinizeTarProcessResultAux, if_pos (by simp [hpass])]
        exact ih _ hrest
      · by_cases hint' : isInternalError r' = true
        · rw [scrutinizeTarProcessResultAux, if_neg (by simp [hpass]),
            if_pos (by simp [hint'])]
          exact ih _ hrest
        · rw [scrutinizeTarProcessResultAux, if_neg (by simp [hpass]),
            if_neg (by simp [hint'])]
          exact ih _ hrest

/-- C3 (amended): for `NMADeleteDirectoriesOp.processResult` every host
with a non-nil error contributes to the non-nil joined error; for
`NMAGetScrutinizeTarOp.processResult` the same holds for every failing
host except internal-server-error results, which the op deliberately skips
with only a warning. -/
theorem processResult_joins_host_failures :
    (∀ (results : List (String × hostHTTPResult (Except String opResponseMap)))
        (host : String) (r : hostHTTPResult (Except String opResponseMap)),
      (host, r) ∈ results → r.err ≠ [] →
        deleteDirProcessResult results ≠ []
          ∧ ∀ e ∈ r.err, e ∈ deleteDirProcessResult results)
      ∧ (∀ (batch : String) (results : List (String × hostHTTPResult String))
          (host : String) (r : hostHTTPResult String),
        (host, r) ∈ results → r.err ≠ [] → isInternalError r = false →
          scrutinizeTarProcessResult batch results ≠ []
            ∧ ∀ e ∈ r.err, e ∈ scrutinizeTarProcessResult batch results) := by
  constructor
  · intro results host r hmem herr
    have hprop : ∀ e ∈ r.err, e ∈ deleteDirProcessResult results := fun e he =>
      deleteDirProcessResultAux_propagates results [] host r hmem e he
    refine ⟨?_, hprop⟩
    rcases hr : r.err with _ | ⟨e, es⟩
    · exact absurd hr herr
    · exact List.ne_nil_of_mem (hprop e (by simp [hr]))
  · intro batch results host r hmem herr hint
    have hprop : ∀ e ∈ r.err, e ∈ scrutinizeTarProcessResult batch results :=
      fun e he =>
        scrutinizeTarProcessResultAux_propagates batch results [] host r hmem hint e he
    refine ⟨?_, hprop⟩
    rcases hr : r.err with _ | ⟨e, es⟩
    · exact absurd hr herr
    · exact List.ne_nil_of_mem (hprop e (by simp [hr]))

/-- Witness for the amended C3 at concrete failing hosts. -/
theorem processResult_joins_host_failures_witness :
    "fail to delete directories"
        ∈ deleteDirProcessResult [("h1", exampleFailedDeleteResult)]
      ∧ "connection refused"
        ∈ scrutinizeTarProcessResult "normal" [("h1", exampleRefusedResult)] := by
  have h := processResult_joins_host_failures
  exact ⟨(h.1 [("h1", exampleFailedDeleteResult)] "h1" exampleFailedDeleteResult
      (by simp) (by decide)).2 _ (by decide),
    (h.2 "normal" [("h1", exampleRefusedResult)] "h1" exampleRefusedResult
      (by simp) (by decide) rfl).2 _ (by decide)⟩

/-! ## NMABootstrapCatalogOp request-body masking (C2) -/

/-- C2 fails on the code: with two hosts and a deny-listed configuration
parameter, the first host's masking pass writes the placeholder through
the shared `Parameters` map, so the body marshaled for the second host
carries the placeholder instead of the real credential — the masked value
reaches the wire.  The first host, marshaled before any masking, still
gets the unmasked body. -/
theorem bootstrap_masking_corrupts_later_marshaled_body :
    (bootstrapUpdateRequestBody
        { hostRequestBodyMap := GoMap.empty
          configurationParameters := [("awsauth", "secret")]
          marshaledRequestBodyMap := GoMap.empty }
        [("h1", exampleProfile "b1"), ("h2", exampleProfile "b2")]).marshaledRequestBodyMap
        "h2"
        = some (marshalBootstrapCatalogRequestData { broadcastAddr := "b2" }
            [("awsauth", maskedValue)])
      ∧ (bootstrapUpdateRequestBody
          { hostRequestBodyMap := GoMap.empty
            configurationParameters := [("awsauth", "secret")]
            marshaledRequestBodyMap := GoMap.empty }
          [("h1", exampleProfile "b1"), ("h2", exampleProfile "b2")]).marshaledRequestBodyMap
          "h2"
        ≠ some (marshalBootstrapCatalogRequestData { broadcastAddr := "b2" }
            [("awsauth", "secret")])
      ∧ (bootstrapUpdateRequestBody
          { hostRequestBodyMap := GoMap.empty
            configurationParameters := [("awsauth", "secret")]
            marshaledRequestBodyMap := GoMap.empty }
          [("h1", exampleProfile "b1"), ("h2", exampleProfile "b2")]).marshaledRequestBodyMap
          "h1"
        = some (marshalBootstrapCatalogRequestData { broadcastAddr := "b1" }
            [("awsauth", "secret")]) :=
  ⟨rfl, by decide, rfl⟩

end VClusterOps
